import Mathlib

/-!
# wallet-service: the balance-mutation engine

A shallow embedding of `services/wallet.go` (`ProcessOperation`, `GetBalance`) and of
`models/wallet.go`, over an explicit model of the two tables the SQL statements touch
(`wallets`, `transactions`).

* Go's `int64` is `Int64`: an integer with its two bounds; `+` and `-` wrap around.
* A transaction works on a copy of the tables; the copy replaces the tables only when
  `tx.Commit` succeeds, otherwise the deferred `tx.Rollback` discards it.
* Every store call of the source can fail: `Faults` says which calls fail in one invocation.
* `Outcome.trace` lists the store calls an invocation issued, in order.
-/

namespace WalletService

/-! ## Machine integers -/

/-- Go's `int64`: an integer between `-2^63` and `2^63 - 1`. -/
structure Int64 where
  val : Int
  lo : -9223372036854775808 ≤ val
  hi : val ≤ 9223372036854775807

instance : DecidableEq Int64 := fun a b =>
  match a, b with
  | ⟨x, _, _⟩, ⟨y, _, _⟩ =>
    if h : x = y then isTrue (by subst h; rfl)
    else isFalse (fun e => h (by cases e; rfl))

/-- Two's-complement reduction of an integer to `int64`. -/
def Int64.wrap (x : Int) : Int64 :=
  ⟨(x + 9223372036854775808) % 18446744073709551616 - 9223372036854775808,
    by omega, by omega⟩

/-- The constant `0` as an `int64`. -/
def Int64.zero : Int64 := ⟨0, by decide, by decide⟩

/-- Go's `+` on `int64` (wraps on overflow). -/
def Int64.add (a b : Int64) : Int64 := Int64.wrap (a.val + b.val)

/-- Go's `-` on `int64` (wraps on overflow). -/
def Int64.sub (a b : Int64) : Int64 := Int64.wrap (a.val - b.val)

/-! ## models/wallet.go -/

/-- The type `uuid.UUID`: an identifier, compared only for equality. -/
abbrev UUID := Nat

/-- The type `models.OperationType`, a Go `string`. -/
abbrev OperationType := String

/-- The constant `models.Deposit`. -/
def Deposit : OperationType := "DEPOSIT"

/-- The constant `models.Withdraw`. -/
def Withdraw : OperationType := "WITHDRAW"

/-- The struct `models.WalletOperation`. -/
structure WalletOperation where
  WalletID : UUID
  OperationType : OperationType
  Amount : Int64
deriving DecidableEq

/-- The struct `models.Wallet`: a row of table `wallets` (columns `id`, `balance`). -/
structure Wallet where
  ID : UUID
  Balance : Int64
deriving DecidableEq

/-- A row of table `transactions`, with the columns the `INSERT` of `ProcessOperation`
sets: `wallet_id`, `operation_type`, `amount`. -/
structure Transaction where
  wallet_id : UUID
  operation_type : OperationType
  amount : Int64
deriving DecidableEq

/-! ## The store -/

/-- The two tables. -/
structure Store where
  wallets : List Wallet
  transactions : List Transaction
deriving DecidableEq

/-- The store with no rows. -/
def Store.empty : Store := ⟨[], []⟩

/-- The query `SELECT EXISTS(SELECT 1 FROM wallets WHERE id = $1)`. -/
def selectExists (ws : List Wallet) (id : UUID) : Bool :=
  ws.any (fun w => decide (w.ID = id))

/-- The statement `INSERT INTO wallets (id, balance) VALUES ($1, $2)`. -/
def insertWallet (ws : List Wallet) (id : UUID) (balance : Int64) : List Wallet :=
  ws ++ [⟨id, balance⟩]

/-- The query `SELECT balance FROM wallets WHERE id = $1` read through `QueryRow(...).Scan`:
the first matching row, `none` for `pgx.ErrNoRows`. -/
def selectBalance (ws : List Wallet) (id : UUID) : Option Int64 :=
  (ws.find? (fun w => decide (w.ID = id))).map Wallet.Balance

/-- The statement `UPDATE wallets SET balance = $1, updated_at = NOW() WHERE id = $2`. -/
def updateBalance (ws : List Wallet) (newBalance : Int64) (id : UUID) : List Wallet :=
  ws.map (fun w => if w.ID = id then ⟨w.ID, newBalance⟩ else w)

/-- The statement
`INSERT INTO transactions (wallet_id, operation_type, amount) VALUES ($1, $2, $3)`. -/
def insertTransaction (ts : List Transaction) (id : UUID) (t : OperationType)
    (amount : Int64) : List Transaction :=
  ts ++ [⟨id, t, amount⟩]

/-! ## services/wallet.go -/

/-- The errors `ProcessOperation` and `GetBalance` return: the two sentinel values and one
constructor per `fmt.Errorf` site. -/
inductive Err where
  | ErrInsufficientFunds
  | ErrWalletNotFound
  | failedToBeginTransaction
  | failedToCheckWalletExistence
  | failedToCreateWallet
  | failedToGetWalletBalance
  | invalidOperationType (t : OperationType)
  | failedToUpdateWalletBalance
  | failedToRecordTransaction
  | failedToCommitTransaction
deriving DecidableEq

/-- The store calls of `ProcessOperation`. -/
inductive Prim where
  | BeginTx
  | SelectExists
  | InsertWallet
  | SelectForUpdate
  | UpdateBalance
  | InsertTransaction
  | Commit
  | Rollback
deriving DecidableEq

/-- Which store calls of one `ProcessOperation` invocation return an error. -/
structure Faults where
  beginTx : Bool
  selectExists : Bool
  insertWallet : Bool
  selectForUpdate : Bool
  updateBalance : Bool
  insertTransaction : Bool
  commit : Bool
deriving DecidableEq

/-- No store call fails. -/
def Faults.none : Faults := ⟨false, false, false, false, false, false, false⟩

/-- The result of one `ProcessOperation` invocation: the returned error (`none` for `nil`),
the store afterwards, and the store calls issued. -/
structure Outcome where
  err : Option Err
  store : Store
  trace : List Prim
deriving DecidableEq

/-- Lines 55-66 of `ProcessOperation`: the `switch` computing `newBalance`. -/
def newBalance (balance : Int64) (op : WalletOperation) : Except Err Int64 :=
  if op.OperationType = Deposit then
    Except.ok (Int64.add balance op.Amount)
  else if op.OperationType = Withdraw then
    if balance.val < op.Amount.val then
      Except.error Err.ErrInsufficientFunds
    else
      Except.ok (Int64.sub balance op.Amount)
  else
    Except.error (Err.invalidOperationType op.OperationType)

/-- The method `(*WalletService).ProcessOperation`. -/
def ProcessOperation (f : Faults) (db : Store) (op : WalletOperation) : Outcome :=
  if f.beginTx then
    ⟨some Err.failedToBeginTransaction, db, [Prim.BeginTx]⟩
  else if f.selectExists then
    ⟨some Err.failedToCheckWalletExistence, db, [Prim.BeginTx, Prim.SelectExists, Prim.Rollback]⟩
  else
    let found := selectExists db.wallets op.WalletID
    if !found && f.insertWallet then
      ⟨some Err.failedToCreateWallet, db,
        [Prim.BeginTx, Prim.SelectExists, Prim.InsertWallet, Prim.Rollback]⟩
    else
      let ws := if found then db.wallets else insertWallet db.wallets op.WalletID Int64.zero
      let tr := if found then [Prim.BeginTx, Prim.SelectExists]
                else [Prim.BeginTx, Prim.SelectExists, Prim.InsertWallet]
      if f.selectForUpdate then
        ⟨some Err.failedToGetWalletBalance, db, tr ++ [Prim.SelectForUpdate, Prim.Rollback]⟩
      else
        match selectBalance ws op.WalletID with
        | Option.none =>
          ⟨some Err.failedToGetWalletBalance, db, tr ++ [Prim.SelectForUpdate, Prim.Rollback]⟩
        | some balance =>
          match newBalance balance op with
          | Except.error e => ⟨some e, db, tr ++ [Prim.SelectForUpdate, Prim.Rollback]⟩
          | Except.ok nb =>
            if f.updateBalance then
              ⟨some Err.failedToUpdateWalletBalance, db,
                tr ++ [Prim.SelectForUpdate, Prim.UpdateBalance, Prim.Rollback]⟩
            else if f.insertTransaction then
              ⟨some Err.failedToRecordTransaction, db,
                tr ++ [Prim.SelectForUpdate, Prim.UpdateBalance, Prim.InsertTransaction,
                  Prim.Rollback]⟩
            else if f.commit then
              ⟨some Err.failedToCommitTransaction, db,
                tr ++ [Prim.SelectForUpdate, Prim.UpdateBalance, Prim.InsertTransaction,
                  Prim.Commit, Prim.Rollback]⟩
            else
              ⟨Option.none,
                ⟨updateBalance ws nb op.WalletID,
                  insertTransaction db.transactions op.WalletID op.OperationType op.Amount⟩,
                tr ++ [Prim.SelectForUpdate, Prim.UpdateBalance, Prim.InsertTransaction,
                  Prim.Commit, Prim.Rollback]⟩

/-- The method `(*WalletService).GetBalance`: the returned pair and the store afterwards.
`fail` says that the query fails with an error other than `pgx.ErrNoRows`. -/
def GetBalance (fail : Bool) (db : Store) (walletID : UUID) : Except Err Int64 × Store :=
  if fail then
    (Except.error Err.failedToGetWalletBalance, db)
  else
    match selectBalance db.wallets walletID with
    | Option.none => (Except.error Err.ErrWalletNotFound, db)
    | some balance => (Except.ok balance, db)

/-- A sequence of `ProcessOperation` calls, one after the other, each with its own faults. -/
def runOps (db : Store) : List (Faults × WalletOperation) → Store
  | [] => db
  | (f, op) :: rest => runOps (ProcessOperation f db op).store rest

/-! ## Vocabulary of the properties -/

/-- Lines 41-47 of `ProcessOperation`: table `wallets` as the transaction sees it after the
existence check and the conditional insert. -/
def ensureWallet (ws : List Wallet) (id : UUID) : List Wallet :=
  if selectExists ws id then ws else insertWallet ws id Int64.zero

/-- The current balance of an account, an absent account counting as balance `0`. -/
def currentBalance (ws : List Wallet) (id : UUID) : Int64 :=
  (selectBalance ws id).getD Int64.zero

/-- None of the store calls that precede the `switch` fails: `BeginTx`, the existence check,
the insert of the account and the locking read of the balance. -/
def Faults.beforeSwitch (f : Faults) : Bool :=
  !f.beginTx && !f.selectExists && !f.insertWallet && !f.selectForUpdate

/-- The store calls issued up to the `switch` when none of them fails. -/
def traceBeforeSwitch (ws : List Wallet) (id : UUID) : List Prim :=
  if selectExists ws id then [Prim.BeginTx, Prim.SelectExists, Prim.SelectForUpdate]
  else [Prim.BeginTx, Prim.SelectExists, Prim.InsertWallet, Prim.SelectForUpdate]

/-- The signed amount of a ledger entry: `+amount` for `DEPOSIT`, `-amount` for `WITHDRAW`. -/
def signedAmount (t : Transaction) : Int :=
  if t.operation_type = Deposit then t.amount.val
  else if t.operation_type = Withdraw then -t.amount.val
  else 0

/-- The exact (unbounded) sum of the signed amounts of the ledger entries of one account. -/
def ledgerSum (ts : List Transaction) (id : UUID) : Int :=
  ((ts.filter (fun t => decide (t.wallet_id = id))).map signedAmount).sum

/-- Along the run from `db`, no committed `DEPOSIT` takes a balance above `2^63 - 1`. -/
def depositsFit (db : Store) : List (Faults × WalletOperation) → Bool
  | [] => true
  | (f, op) :: rest =>
    decide (op.OperationType = Deposit → (ProcessOperation f db op).err = Option.none →
        (currentBalance db.wallets op.WalletID).val + op.Amount.val ≤ 9223372036854775807)
      && depositsFit (ProcessOperation f db op).store rest

/-- The ledger invariant of a store: every row of `wallets` holds the `int64` reduction of
the signed sum of the ledger entries of its account, and every ledger entry belongs to an
account that has a row. -/
def LedgerInv (db : Store) : Prop :=
  (∀ w ∈ db.wallets, w.Balance = Int64.wrap (ledgerSum db.transactions w.ID)) ∧
  (∀ t ∈ db.transactions, selectExists db.wallets t.wallet_id = true)

/-- No row of `wallets` holds a negative balance. -/
def NonNegative (db : Store) : Prop :=
  ∀ w ∈ db.wallets, 0 ≤ w.Balance.val

/-- The largest `int64`, `math.MaxInt64`. -/
def maxInt64 : Int64 := ⟨9223372036854775807, by decide, by decide⟩

/-- The smallest `int64`, `math.MinInt64`. -/
def minInt64 : Int64 := ⟨-9223372036854775808, by decide, by decide⟩

/-- An `int64` given by a small literal (below `2^31` in absolute value). -/
def Int64.lit (n : Int) (h : -2147483648 ≤ n ∧ n ≤ 2147483647) : Int64 :=
  ⟨n, by omega, by omega⟩

/-! ## Lemmas on machine integers -/

theorem Int64.eq_of_val {a b : Int64} (h : a.val = b.val) : a = b := by
  cases a; cases b; cases h; rfl

theorem Int64.wrap_val_of_fits (x : Int) (h1 : -9223372036854775808 ≤ x)
    (h2 : x ≤ 9223372036854775807) : (Int64.wrap x).val = x := by
  simp only [Int64.wrap]
  omega

theorem Int64.wrap_add_wrap (x y : Int) :
    Int64.wrap ((Int64.wrap x).val + y) = Int64.wrap (x + y) := by
  apply Int64.eq_of_val
  simp only [Int64.wrap]
  omega

theorem Int64.wrap_sub_wrap (x y : Int) :
    Int64.wrap ((Int64.wrap x).val - y) = Int64.wrap (x + -y) := by
  apply Int64.eq_of_val
  simp only [Int64.wrap]
  omega

/-! ## Lemmas on the store calls -/

theorem selectBalance_of_not_exists (ws : List Wallet) (id : UUID)
    (h : selectExists ws id = false) : selectBalance ws id = none := by
  induction ws with
  | nil => rfl
  | cons w ws ih =>
    simp only [selectExists, List.any_cons, Bool.or_eq_false_iff, decide_eq_false_iff_not] at h
    simp only [selectBalance, List.find?_cons, decide_eq_false h.1]
    exact ih (by simpa [selectExists] using h.2)

theorem selectBalance_of_exists (ws : List Wallet) (id : UUID)
    (h : selectExists ws id = true) :
    ∃ w, w ∈ ws ∧ w.ID = id ∧ selectBalance ws id = some w.Balance := by
  induction ws with
  | nil => simp [selectExists] at h
  | cons w ws ih =>
    by_cases hw : w.ID = id
    · exact ⟨w, List.mem_cons_self w ws, hw, by simp [selectBalance, List.find?_cons, hw]⟩
    · have h2 : selectExists ws id = true := by simpa [selectExists, hw] using h
      obtain ⟨v, hv, hid, hb⟩ := ih h2
      exact ⟨v, List.mem_cons_of_mem w hv, hid,
        by simpa [selectBalance, List.find?_cons, hw] using hb⟩

theorem selectBalance_insert_self (ws : List Wallet) (id : UUID) (b : Int64)
    (h : selectExists ws id = false) : selectBalance (insertWallet ws id b) id = some b := by
  induction ws with
  | nil => simp [selectBalance, insertWallet]
  | cons w ws ih =>
    simp only [selectExists, List.any_cons, Bool.or_eq_false_iff, decide_eq_false_iff_not] at h
    have := ih (by simpa [selectExists] using h.2)
    simpa [selectBalance, insertWallet, List.find?_cons, h.1] using this

theorem selectBalance_ensureWallet (ws : List Wallet) (id : UUID) :
    selectBalance (ensureWallet ws id) id = some (currentBalance ws id) := by
  unfold ensureWallet currentBalance
  cases h : selectExists ws id
  · simp [selectBalance_insert_self ws id _ h, selectBalance_of_not_exists ws id h]
  · obtain ⟨w, _, _, hb⟩ := selectBalance_of_exists ws id h
    simp [hb]

theorem currentBalance_of_not_exists (ws : List Wallet) (id : UUID)
    (h : selectExists ws id = false) : currentBalance ws id = Int64.zero := by
  simp [currentBalance, selectBalance_of_not_exists ws id h]

theorem selectBalance_updateBalance_self (ws : List Wallet) (nb b : Int64) (id : UUID)
    (h : selectBalance ws id = some b) : selectBalance (updateBalance ws nb id) id = some nb := by
  induction ws with
  | nil => simp [selectBalance] at h
  | cons w ws ih =>
    by_cases hw : w.ID = id
    · simp [selectBalance, updateBalance, List.find?_cons, hw]
    · have h2 : selectBalance ws id = some b := by
        simpa [selectBalance, List.find?_cons, hw] using h
      have := ih h2
      simpa [selectBalance, updateBalance, List.find?_cons, hw] using this

theorem filter_updateBalance_other (ws : List Wallet) (nb : Int64) (id y : UUID) (h : y ≠ id) :
    (updateBalance ws nb id).filter (fun w => decide (w.ID = y))
      = ws.filter (fun w => decide (w.ID = y)) := by
  induction ws with
  | nil => rfl
  | cons w ws ih =>
    have ih2 : List.filter (fun w => decide (w.ID = y))
        (List.map (fun w => if w.ID = id then (⟨w.ID, nb⟩ : Wallet) else w) ws)
        = List.filter (fun w => decide (w.ID = y)) ws := ih
    by_cases hw : w.ID = id
    · have hy : ¬ w.ID = y := fun e => h (e.symm.trans hw)
      have hy2 : ¬ id = y := fun e => h e.symm
      simp [updateBalance, List.filter_cons, hw, hy2, ih2]
    · simp [updateBalance, List.filter_cons, hw, ih2]

theorem filter_ensureWallet_other (ws : List Wallet) (id y : UUID) (h : y ≠ id) :
    (ensureWallet ws id).filter (fun w => decide (w.ID = y))
      = ws.filter (fun w => decide (w.ID = y)) := by
  have hy2 : ¬ id = y := fun e => h e.symm
  unfold ensureWallet
  split
  · rfl
  · simp [insertWallet, List.filter_append, List.filter_cons, hy2]

theorem selectExists_eq_filter (ws : List Wallet) (y : UUID) :
    selectExists ws y = !(ws.filter (fun w => decide (w.ID = y))).isEmpty := by
  induction ws with
  | nil => rfl
  | cons w ws ih =>
    by_cases hw : w.ID = y
    · simp [selectExists, List.filter_cons, hw]
    · have ih2 : List.any ws (fun w => decide (w.ID = y))
          = !(List.filter (fun w => decide (w.ID = y)) ws).isEmpty := ih
      simp only [selectExists, List.any_cons, List.filter_cons, hw, decide_False,
        Bool.false_or, ih2]
      rfl

theorem selectBalance_eq_filter (ws : List Wallet) (y : UUID) :
    selectBalance ws y = ((ws.filter (fun w => decide (w.ID = y))).head?).map Wallet.Balance := by
  induction ws with
  | nil => rfl
  | cons w ws ih =>
    by_cases hw : w.ID = y
    · simp [selectBalance, List.filter_cons, List.find?_cons, hw]
    · have ih2 : Option.map Wallet.Balance (List.find? (fun w => decide (w.ID = y)) ws)
          = ((ws.filter (fun w => decide (w.ID = y))).head?).map Wallet.Balance := ih
      simp only [selectBalance, List.find?_cons, List.filter_cons, hw, decide_False, ih2]
      rfl

/-! ## The shape of one invocation -/

/-- Every invocation either fails and leaves the store as it was, or commits the balance
computed by the `switch` together with one ledger entry. -/
theorem ProcessOperation_cases (f : Faults) (db : Store) (op : WalletOperation) :
    ((ProcessOperation f db op).err ≠ none ∧ (ProcessOperation f db op).store = db) ∨
    (∃ nb, newBalance (currentBalance db.wallets op.WalletID) op = Except.ok nb ∧
      (ProcessOperation f db op).err = none ∧
      (ProcessOperation f db op).store =
        ⟨updateBalance (ensureWallet db.wallets op.WalletID) nb op.WalletID,
          insertTransaction db.transactions op.WalletID op.OperationType op.Amount⟩) := by
  have hsel := selectBalance_ensureWallet db.wallets op.WalletID
  unfold ensureWallet at hsel ⊢
  unfold ProcessOperation
  by_cases h1 : f.beginTx = true
  · left; simp [h1]
  by_cases h2 : f.selectExists = true
  · left; simp [h1, h2]
  by_cases h3 : (!selectExists db.wallets op.WalletID && f.insertWallet) = true
  · left; simp only [h1, h2, h3]; simp
  by_cases h4 : f.selectForUpdate = true
  · left; simp only [h1, h2, h3, h4]; simp
  simp only [h1, h2, h3, h4, hsel]
  cases hnb : newBalance (currentBalance db.wallets op.WalletID) op with
  | error e => left; simp
  | ok nb =>
    by_cases h5 : f.updateBalance = true
    · left; simp [h5]
    by_cases h6 : f.insertTransaction = true
    · left; simp [h5, h6]
    by_cases h7 : f.commit = true
    · left; simp [h5, h6, h7]
    right
    exact ⟨nb, rfl, by simp [h5, h6, h7], by simp [h5, h6, h7]⟩

/-- When the calls before the `switch` succeed and the `switch` returns an error, that error
is returned, the store is as before, and only the calls before the `switch` were issued. -/
theorem ProcessOperation_reject (f : Faults) (db : Store) (op : WalletOperation) (e : Err)
    (hf : f.beforeSwitch = true)
    (he : newBalance (currentBalance db.wallets op.WalletID) op = Except.error e) :
    ProcessOperation f db op
      = ⟨some e, db, traceBeforeSwitch db.wallets op.WalletID ++ [Prim.Rollback]⟩ := by
  have hsel := selectBalance_ensureWallet db.wallets op.WalletID
  unfold ensureWallet at hsel
  simp only [Faults.beforeSwitch, Bool.and_eq_true, Bool.not_eq_true', ] at hf
  obtain ⟨⟨⟨h1, h2⟩, h3⟩, h4⟩ := hf
  unfold ProcessOperation traceBeforeSwitch
  simp only [h1, h2, h3, h4, hsel, he]
  cases selectExists db.wallets op.WalletID <;> simp

/-- When no store call fails and the `switch` computes `nb`, the invocation commits. -/
theorem ProcessOperation_of_ok (db : Store) (op : WalletOperation) (nb : Int64)
    (he : newBalance (currentBalance db.wallets op.WalletID) op = Except.ok nb) :
    ProcessOperation Faults.none db op
      = ⟨none,
          ⟨updateBalance (ensureWallet db.wallets op.WalletID) nb op.WalletID,
            insertTransaction db.transactions op.WalletID op.OperationType op.Amount⟩,
          traceBeforeSwitch db.wallets op.WalletID
            ++ [Prim.UpdateBalance, Prim.InsertTransaction, Prim.Commit, Prim.Rollback]⟩ := by
  have hsel := selectBalance_ensureWallet db.wallets op.WalletID
  unfold ensureWallet at hsel ⊢
  unfold ProcessOperation traceBeforeSwitch
  simp only [Faults.none, hsel, he]
  cases selectExists db.wallets op.WalletID <;> simp

/-! ## Rejected withdrawals (C1) -/

theorem Withdraw_ne_Deposit : Withdraw ≠ Deposit := by decide

theorem newBalance_insufficient (balance : Int64) (op : WalletOperation)
    (hW : op.OperationType = Withdraw) (hgt : balance.val < op.Amount.val) :
    newBalance balance op = Except.error Err.ErrInsufficientFunds := by
  simp [newBalance, hW, Withdraw_ne_Deposit, hgt]

/-- C1: a `WITHDRAW` whose amount is greater than the current balance (an absent account
counting as balance 0) is answered with `ErrInsufficientFunds` as soon as the store calls
before the `switch` succeed; whatever the store does, the call returns an error and the
store, hence the balance of the account and the number of ledger entries, is as before. -/
theorem withdraw_above_balance_rejected (f : Faults) (db : Store) (op : WalletOperation)
    (hW : op.OperationType = Withdraw)
    (hgt : (currentBalance db.wallets op.WalletID).val < op.Amount.val) :
    (f.beforeSwitch = true →
        (ProcessOperation f db op).err = some Err.ErrInsufficientFunds) ∧
      (ProcessOperation f db op).err ≠ none ∧
      (ProcessOperation f db op).store = db ∧
      currentBalance (ProcessOperation f db op).store.wallets op.WalletID
        = currentBalance db.wallets op.WalletID ∧
      (ProcessOperation f db op).store.transactions.length = db.transactions.length := by
  have hnb := newBalance_insufficient (currentBalance db.wallets op.WalletID) op hW hgt
  have hst : (ProcessOperation f db op).err ≠ none ∧ (ProcessOperation f db op).store = db := by
    rcases ProcessOperation_cases f db op with h | ⟨nb, h, _⟩
    · exact h
    · rw [hnb] at h; cases h
  refine ⟨fun hf => ?_, hst.1, hst.2, by rw [hst.2], by rw [hst.2]⟩
  rw [ProcessOperation_reject f db op _ hf hnb]

/-- C1 at the input of test "Insufficient funds": balance 100, withdraw 200. -/
theorem withdraw_above_balance_rejected_witness :
    (ProcessOperation Faults.none
        ⟨[⟨7, Int64.lit 100 (by decide)⟩], [⟨7, Deposit, Int64.lit 100 (by decide)⟩]⟩
        ⟨7, Withdraw, Int64.lit 200 (by decide)⟩).err = some Err.ErrInsufficientFunds ∧
      (ProcessOperation Faults.none
        ⟨[⟨7, Int64.lit 100 (by decide)⟩], [⟨7, Deposit, Int64.lit 100 (by decide)⟩]⟩
        ⟨7, Withdraw, Int64.lit 200 (by decide)⟩).store
        = ⟨[⟨7, Int64.lit 100 (by decide)⟩], [⟨7, Deposit, Int64.lit 100 (by decide)⟩]⟩ :=
  have h := withdraw_above_balance_rejected Faults.none
    ⟨[⟨7, Int64.lit 100 (by decide)⟩], [⟨7, Deposit, Int64.lit 100 (by decide)⟩]⟩
    ⟨7, Withdraw, Int64.lit 200 (by decide)⟩ (by decide) (by decide)
  ⟨h.1 (by decide), h.2.2.1⟩

/-! ## All or nothing (C5) -/

/-- C5: an invocation has exactly one of two outcomes. Either it returns `nil`, table
`wallets` is the one of the transaction (the account inserted if it was absent) with the new
balance written to the target account, which then reads back, and table `transactions` has
exactly one more row carrying the account id, kind and amount of the operation; or it returns
an error and the store is the store before the call. -/
theorem ProcessOperation_all_or_nothing (f : Faults) (db : Store) (op : WalletOperation) :
    (((ProcessOperation f db op).err = none ∧
        ∃ nb, newBalance (currentBalance db.wallets op.WalletID) op = Except.ok nb ∧
          (ProcessOperation f db op).store.wallets
            = updateBalance (ensureWallet db.wallets op.WalletID) nb op.WalletID ∧
          selectBalance (ProcessOperation f db op).store.wallets op.WalletID = some nb ∧
          (ProcessOperation f db op).store.transactions
            = db.transactions ++ [⟨op.WalletID, op.OperationType, op.Amount⟩]) ∨
      ((ProcessOperation f db op).err ≠ none ∧ (ProcessOperation f db op).store = db)) ∧
    ¬ ((ProcessOperation f db op).err = none ∧ (ProcessOperation f db op).err ≠ none) := by
  refine ⟨?_, fun h => h.2 h.1⟩
  rcases ProcessOperation_cases f db op with h | ⟨nb, hnb, herr, hst⟩
  · exact Or.inr h
  · refine Or.inl ⟨herr, nb, hnb, by rw [hst], ?_, by rw [hst]; rfl⟩
    rw [hst]
    exact selectBalance_updateBalance_self _ nb _ _ (selectBalance_ensureWallet _ _)

/-! ## Balance query (C6) -/

/-- C6: for an account id without a row, `GetBalance` returns `ErrWalletNotFound` when the
query itself succeeds, never returns a balance, and leaves the store unchanged: the account
still has no row afterwards. -/
theorem GetBalance_unknown_account (fail : Bool) (db : Store) (walletID : UUID)
    (h : selectExists db.wallets walletID = false) :
    (fail = false → (GetBalance fail db walletID).1 = Except.error Err.ErrWalletNotFound) ∧
      (∀ b, (GetBalance fail db walletID).1 ≠ Except.ok b) ∧
      (GetBalance fail db walletID).2 = db ∧
      selectExists (GetBalance fail db walletID).2.wallets walletID = false := by
  have hsel := selectBalance_of_not_exists db.wallets walletID h
  cases fail <;> simp [GetBalance, hsel, h]

/-- C6 at a store holding another account only. -/
theorem GetBalance_unknown_account_witness :
    selectExists [(⟨1, Int64.lit 1000 (by decide)⟩ : Wallet)] 2 = false ∧
      (GetBalance false ⟨[⟨1, Int64.lit 1000 (by decide)⟩], []⟩ 2).1
        = Except.error Err.ErrWalletNotFound ∧
      (GetBalance false ⟨[⟨1, Int64.lit 1000 (by decide)⟩], []⟩ 2).2
        = ⟨[⟨1, Int64.lit 1000 (by decide)⟩], []⟩ :=
  have h := GetBalance_unknown_account false ⟨[⟨1, Int64.lit 1000 (by decide)⟩], []⟩ 2
    (by decide)
  ⟨by decide, h.1 rfl, h.2.2.1⟩

/-! ## Other accounts are untouched (C10) -/

/-- C10: whatever an invocation on account `op.WalletID` does, the rows of any other account
`y` in table `wallets` are the same, so its existence and its balance are the same, and the
ledger entries recorded for `y` are the same. -/
theorem ProcessOperation_other_accounts (f : Faults) (db : Store) (op : WalletOperation)
    (y : UUID) (hy : y ≠ op.WalletID) :
    (ProcessOperation f db op).store.wallets.filter (fun w => decide (w.ID = y))
        = db.wallets.filter (fun w => decide (w.ID = y)) ∧
      selectExists (ProcessOperation f db op).store.wallets y = selectExists db.wallets y ∧
      selectBalance (ProcessOperation f db op).store.wallets y = selectBalance db.wallets y ∧
      (ProcessOperation f db op).store.transactions.filter (fun t => decide (t.wallet_id = y))
        = db.transactions.filter (fun t => decide (t.wallet_id = y)) := by
  have hw : (ProcessOperation f db op).store.wallets.filter (fun w => decide (w.ID = y))
        = db.wallets.filter (fun w => decide (w.ID = y)) := by
    rcases ProcessOperation_cases f db op with h | ⟨nb, _, _, hst⟩
    · rw [h.2]
    · rw [hst]
      show (updateBalance (ensureWallet db.wallets op.WalletID) nb op.WalletID).filter _ = _
      rw [filter_updateBalance_other _ _ _ _ hy, filter_ensureWallet_other _ _ _ hy]
  refine ⟨hw, ?_, ?_, ?_⟩
  · rw [selectExists_eq_filter, selectExists_eq_filter, hw]
  · rw [selectBalance_eq_filter, selectBalance_eq_filter, hw]
  · rcases ProcessOperation_cases f db op with h | ⟨nb, _, _, hst⟩
    · rw [h.2]
    · have hne : ¬ op.WalletID = y := fun e => hy e.symm
      rw [hst]
      simp [insertTransaction, List.filter_append, List.filter_cons, hne]

/-- C10 at a deposit into account 1 of a store that also holds account 2. -/
theorem ProcessOperation_other_accounts_witness :
    (2 : UUID) ≠ 1 ∧
      selectBalance (ProcessOperation Faults.none
        ⟨[⟨1, Int64.lit 5 (by decide)⟩, ⟨2, Int64.lit 9 (by decide)⟩],
          [⟨1, Deposit, Int64.lit 5 (by decide)⟩, ⟨2, Deposit, Int64.lit 9 (by decide)⟩]⟩
        ⟨1, Deposit, Int64.lit 3 (by decide)⟩).store.wallets 2
        = some (Int64.lit 9 (by decide)) :=
  ⟨by decide,
    (ProcessOperation_other_accounts Faults.none
      ⟨[⟨1, Int64.lit 5 (by decide)⟩, ⟨2, Int64.lit 9 (by decide)⟩],
        [⟨1, Deposit, Int64.lit 5 (by decide)⟩, ⟨2, Deposit, Int64.lit 9 (by decide)⟩]⟩
      ⟨1, Deposit, Int64.lit 3 (by decide)⟩ 2 (by decide)).2.2.1⟩

/-! ## Committed operations (C2) -/

theorem newBalance_deposit (balance : Int64) (op : WalletOperation)
    (hD : op.OperationType = Deposit) :
    newBalance balance op = Except.ok (Int64.add balance op.Amount) := by
  simp [newBalance, hD]

theorem newBalance_withdraw (balance : Int64) (op : WalletOperation)
    (hW : op.OperationType = Withdraw) (hle : op.Amount.val ≤ balance.val) :
    newBalance balance op = Except.ok (Int64.sub balance op.Amount) := by
  simp [newBalance, hW, Withdraw_ne_Deposit, not_lt.mpr hle]

theorem GetBalance_after_commit (db : Store) (op : WalletOperation) (nb : Int64)
    (he : newBalance (currentBalance db.wallets op.WalletID) op = Except.ok nb) :
    (ProcessOperation Faults.none db op).err = none ∧
      (GetBalance false (ProcessOperation Faults.none db op).store op.WalletID).1
        = Except.ok nb ∧
      (ProcessOperation Faults.none db op).store
        = ⟨updateBalance (ensureWallet db.wallets op.WalletID) nb op.WalletID,
            db.transactions ++ [⟨op.WalletID, op.OperationType, op.Amount⟩]⟩ := by
  rw [ProcessOperation_of_ok db op nb he]
  refine ⟨rfl, ?_, rfl⟩
  have := selectBalance_updateBalance_self _ nb _ _
    (selectBalance_ensureWallet db.wallets op.WalletID)
  simp [GetBalance, this]

/-- C2, counterexample: account 1 holds `2^63 - 1` (the store reached from the empty store by
one deposit of `2^63 - 1`); a deposit of 1 commits and `GetBalance` then returns `-2^63`,
which is not the previous balance plus the amount. -/
theorem deposit_overflow_counterexample :
    (ProcessOperation Faults.none Store.empty ⟨1, Deposit, maxInt64⟩).store
        = ⟨[⟨1, maxInt64⟩], [⟨1, Deposit, maxInt64⟩]⟩ ∧
      0 < (Int64.lit 1 (by decide)).val ∧
      (ProcessOperation Faults.none ⟨[⟨1, maxInt64⟩], [⟨1, Deposit, maxInt64⟩]⟩
        ⟨1, Deposit, Int64.lit 1 (by decide)⟩).err = none ∧
      (GetBalance false
        (ProcessOperation Faults.none ⟨[⟨1, maxInt64⟩], [⟨1, Deposit, maxInt64⟩]⟩
          ⟨1, Deposit, Int64.lit 1 (by decide)⟩).store 1).1 = Except.ok minInt64 ∧
      minInt64.val = -9223372036854775808 ∧
      minInt64.val ≠ (currentBalance [⟨1, maxInt64⟩] 1).val + (Int64.lit 1 (by decide)).val :=
  ⟨by decide, by decide, by decide, rfl, by decide, by decide⟩

/-- C2, amended: when no store call fails and the amount is strictly positive, a `DEPOSIT`
commits and `GetBalance` then returns the previous balance (0 for an absent account, which
now has a row) plus the amount in `int64` arithmetic, which is the exact sum whenever that
sum is at most `2^63 - 1`; a `WITHDRAW` whose amount is at most the current balance commits
and `GetBalance` then returns exactly the previous balance minus the amount. -/
theorem ProcessOperation_commits (db : Store) (op : WalletOperation)
    (hpos : 0 < op.Amount.val) :
    (op.OperationType = Deposit →
      (ProcessOperation Faults.none db op).err = none ∧
      selectExists (ProcessOperation Faults.none db op).store.wallets op.WalletID = true ∧
      (GetBalance false (ProcessOperation Faults.none db op).store op.WalletID).1
        = Except.ok (Int64.add (currentBalance db.wallets op.WalletID) op.Amount) ∧
      ((currentBalance db.wallets op.WalletID).val + op.Amount.val ≤ 9223372036854775807 →
        (Int64.add (currentBalance db.wallets op.WalletID) op.Amount).val
          = (currentBalance db.wallets op.WalletID).val + op.Amount.val)) ∧
    (op.OperationType = Withdraw →
      op.Amount.val ≤ (currentBalance db.wallets op.WalletID).val →
      (ProcessOperation Faults.none db op).err = none ∧
      selectExists (ProcessOperation Faults.none db op).store.wallets op.WalletID = true ∧
      (GetBalance false (ProcessOperation Faults.none db op).store op.WalletID).1
        = Except.ok (Int64.sub (currentBalance db.wallets op.WalletID) op.Amount) ∧
      (Int64.sub (currentBalance db.wallets op.WalletID) op.Amount).val
        = (currentBalance db.wallets op.WalletID).val - op.Amount.val) := by
  have hex : ∀ nb, newBalance (currentBalance db.wallets op.WalletID) op = Except.ok nb →
      selectExists (ProcessOperation Faults.none db op).store.wallets op.WalletID = true := by
    intro nb he
    have hg := (GetBalance_after_commit db op nb he).2.1
    cases hx : selectExists (ProcessOperation Faults.none db op).store.wallets op.WalletID
    · have := selectBalance_of_not_exists _ _ hx
      simp [GetBalance, this] at hg
    · rfl
  have hlo := (currentBalance db.wallets op.WalletID).lo
  have hhi := (currentBalance db.wallets op.WalletID).hi
  have ahi := op.Amount.hi
  constructor
  · intro hD
    have he := newBalance_deposit (currentBalance db.wallets op.WalletID) op hD
    have hc := GetBalance_after_commit db op _ he
    refine ⟨hc.1, hex _ he, hc.2.1, fun hfit => ?_⟩
    exact Int64.wrap_val_of_fits _ (by omega) hfit
  · intro hW hle
    have he := newBalance_withdraw (currentBalance db.wallets op.WalletID) op hW hle
    have hc := GetBalance_after_commit db op _ he
    refine ⟨hc.1, hex _ he, hc.2.1, ?_⟩
    exact Int64.wrap_val_of_fits _ (by omega) (by omega)

/-- C2, amended, at the input of test "Withdraw from wallet": balance 2000, withdraw 500. -/
theorem ProcessOperation_commits_witness :
    0 < (Int64.lit 500 (by decide)).val ∧
      (GetBalance false
        (ProcessOperation Faults.none
          ⟨[⟨3, Int64.lit 2000 (by decide)⟩], [⟨3, Deposit, Int64.lit 2000 (by decide)⟩]⟩
          ⟨3, Withdraw, Int64.lit 500 (by decide)⟩).store 3).1
        = Except.ok (Int64.lit 1500 (by decide)) :=
  ⟨by decide,
    ((ProcessOperation_commits
      ⟨[⟨3, Int64.lit 2000 (by decide)⟩], [⟨3, Deposit, Int64.lit 2000 (by decide)⟩]⟩
      ⟨3, Withdraw, Int64.lit 500 (by decide)⟩ (by decide)).2 rfl (by decide)).2.2.1⟩

/-! ## Amounts that are not positive (C7) -/

/-- C7, counterexample: on the empty store a `DEPOSIT` of `-5` returns `nil`, creates the
account with balance `-5` and records a ledger entry; a `DEPOSIT` of `0` returns `nil` and
records a ledger entry. -/
theorem nonpositive_amount_counterexample :
    (Int64.lit (-5) (by decide)).val ≤ 0 ∧
      (ProcessOperation Faults.none Store.empty
        ⟨1, Deposit, Int64.lit (-5) (by decide)⟩).err = none ∧
      (ProcessOperation Faults.none Store.empty
        ⟨1, Deposit, Int64.lit (-5) (by decide)⟩).store
        = ⟨[⟨1, Int64.lit (-5) (by decide)⟩], [⟨1, Deposit, Int64.lit (-5) (by decide)⟩]⟩ ∧
      Int64.zero.val ≤ 0 ∧
      (ProcessOperation Faults.none Store.empty ⟨1, Deposit, Int64.zero⟩).err = none ∧
      (ProcessOperation Faults.none Store.empty ⟨1, Deposit, Int64.zero⟩).store
        = ⟨[⟨1, Int64.zero⟩], [⟨1, Deposit, Int64.zero⟩]⟩ := by
  decide

/-- C7, amended: `ProcessOperation` does not look at the sign of the amount. When no store
call fails and the amount is zero or negative, a `DEPOSIT` commits, writing one ledger entry
and the balance plus the amount computed in `int64` arithmetic, which is the exact sum
exactly when that sum is at least `-2^63`; a `WITHDRAW` from a balance that is not negative
commits, writing one ledger entry and the balance minus the amount computed in `int64`
arithmetic, which is the exact difference exactly when that difference is at most
`2^63 - 1`. -/
theorem nonpositive_amount_commits (db : Store) (op : WalletOperation)
    (hle : op.Amount.val ≤ 0) :
    (op.OperationType = Deposit →
      (ProcessOperation Faults.none db op).err = none ∧
      (ProcessOperation Faults.none db op).store
        = ⟨updateBalance (ensureWallet db.wallets op.WalletID)
              (Int64.add (currentBalance db.wallets op.WalletID) op.Amount) op.WalletID,
            db.transactions ++ [⟨op.WalletID, op.OperationType, op.Amount⟩]⟩ ∧
      ((Int64.add (currentBalance db.wallets op.WalletID) op.Amount).val
          = (currentBalance db.wallets op.WalletID).val + op.Amount.val ↔
        -9223372036854775808 ≤ (currentBalance db.wallets op.WalletID).val + op.Amount.val)) ∧
    (op.OperationType = Withdraw → 0 ≤ (currentBalance db.wallets op.WalletID).val →
      (ProcessOperation Faults.none db op).err = none ∧
      (ProcessOperation Faults.none db op).store
        = ⟨updateBalance (ensureWallet db.wallets op.WalletID)
              (Int64.sub (currentBalance db.wallets op.WalletID) op.Amount) op.WalletID,
            db.transactions ++ [⟨op.WalletID, op.OperationType, op.Amount⟩]⟩ ∧
      ((Int64.sub (currentBalance db.wallets op.WalletID) op.Amount).val
          = (currentBalance db.wallets op.WalletID).val - op.Amount.val ↔
        (currentBalance db.wallets op.WalletID).val - op.Amount.val ≤ 9223372036854775807)) := by
  have hlo := (currentBalance db.wallets op.WalletID).lo
  have hhi := (currentBalance db.wallets op.WalletID).hi
  constructor
  · intro hD
    have hc := GetBalance_after_commit db op _
      (newBalance_deposit (currentBalance db.wallets op.WalletID) op hD)
    refine ⟨hc.1, hc.2.2, fun e => ?_, fun hfit => ?_⟩
    · rw [← e]
      exact (Int64.add (currentBalance db.wallets op.WalletID) op.Amount).lo
    · exact Int64.wrap_val_of_fits _ hfit (by omega)
  · intro hW h0
    have hc := GetBalance_after_commit db op _
      (newBalance_withdraw (currentBalance db.wallets op.WalletID) op hW (by omega))
    refine ⟨hc.1, hc.2.2, fun e => ?_, fun hfit => ?_⟩
    · rw [← e]
      exact (Int64.sub (currentBalance db.wallets op.WalletID) op.Amount).hi
    · exact Int64.wrap_val_of_fits _ (by omega) hfit

/-- C7, amended, at a withdrawal of `-5` from an account holding 10: the call commits, the
balance becomes 15, the exact difference, and a second ledger entry is recorded. -/
theorem nonpositive_amount_commits_witness :
    (Int64.lit (-5) (by decide)).val ≤ 0 ∧
      0 ≤ (currentBalance [(⟨1, Int64.lit 10 (by decide)⟩ : Wallet)] 1).val ∧
      (ProcessOperation Faults.none
        ⟨[⟨1, Int64.lit 10 (by decide)⟩], [⟨1, Deposit, Int64.lit 10 (by decide)⟩]⟩
        ⟨1, Withdraw, Int64.lit (-5) (by decide)⟩).err = none ∧
      (ProcessOperation Faults.none
        ⟨[⟨1, Int64.lit 10 (by decide)⟩], [⟨1, Deposit, Int64.lit 10 (by decide)⟩]⟩
        ⟨1, Withdraw, Int64.lit (-5) (by decide)⟩).store
        = ⟨[⟨1, Int64.lit 15 (by decide)⟩],
            [⟨1, Deposit, Int64.lit 10 (by decide)⟩,
              ⟨1, Withdraw, Int64.lit (-5) (by decide)⟩]⟩ ∧
      (Int64.sub (Int64.lit 10 (by decide)) (Int64.lit (-5) (by decide))).val = 10 - -5 :=
  have h := (nonpositive_amount_commits
    ⟨[⟨1, Int64.lit 10 (by decide)⟩], [⟨1, Deposit, Int64.lit 10 (by decide)⟩]⟩
    ⟨1, Withdraw, Int64.lit (-5) (by decide)⟩ (by decide)).2 rfl (by decide)
  ⟨by decide, by decide, h.1, h.2.1, h.2.2.mpr (by decide)⟩

/-! ## Operation kinds other than DEPOSIT and WITHDRAW (C8) -/

theorem newBalance_invalid (balance : Int64) (op : WalletOperation)
    (hD : op.OperationType ≠ Deposit) (hW : op.OperationType ≠ Withdraw) :
    newBalance balance op = Except.error (Err.invalidOperationType op.OperationType) := by
  simp [newBalance, hD, hW]

/-- When the `switch` returns an error, no balance update, no ledger insert and no commit is
issued, whichever store calls fail. -/
theorem ProcessOperation_trace_of_reject (f : Faults) (db : Store) (op : WalletOperation)
    (e : Err) (he : newBalance (currentBalance db.wallets op.WalletID) op = Except.error e) :
    Prim.UpdateBalance ∉ (ProcessOperation f db op).trace ∧
      Prim.InsertTransaction ∉ (ProcessOperation f db op).trace ∧
      Prim.Commit ∉ (ProcessOperation f db op).trace := by
  have hsel := selectBalance_ensureWallet db.wallets op.WalletID
  unfold ensureWallet at hsel
  unfold ProcessOperation
  by_cases h1 : f.beginTx = true
  · simp [h1]
  by_cases h2 : f.selectExists = true
  · simp [h1, h2]
  by_cases h3 : (!selectExists db.wallets op.WalletID && f.insertWallet) = true
  · simp only [h1, h2, h3]; simp
  by_cases h4 : f.selectForUpdate = true
  · simp only [h1, h2, h3, h4]
    cases selectExists db.wallets op.WalletID <;> simp
  simp only [h1, h2, h3, h4, hsel, he]
  cases selectExists db.wallets op.WalletID <;> simp

/-- C8, counterexample: on the empty store an operation of kind `"TRANSFER"` is answered with
the invalid-operation-type error only after the transaction was begun and the existence
check, the insert of the account and the locking read of the balance were issued. -/
theorem invalid_kind_counterexample :
    ("TRANSFER" : OperationType) ≠ Deposit ∧ ("TRANSFER" : OperationType) ≠ Withdraw ∧
      ProcessOperation Faults.none Store.empty ⟨1, "TRANSFER", Int64.lit 10 (by decide)⟩
        = ⟨some (Err.invalidOperationType "TRANSFER"), Store.empty,
            [Prim.BeginTx, Prim.SelectExists, Prim.InsertWallet, Prim.SelectForUpdate,
              Prim.Rollback]⟩ ∧
      Prim.SelectExists ∈
        (ProcessOperation Faults.none Store.empty
          ⟨1, "TRANSFER", Int64.lit 10 (by decide)⟩).trace ∧
      Prim.InsertWallet ∈
        (ProcessOperation Faults.none Store.empty
          ⟨1, "TRANSFER", Int64.lit 10 (by decide)⟩).trace ∧
      Prim.SelectForUpdate ∈
        (ProcessOperation Faults.none Store.empty
          ⟨1, "TRANSFER", Int64.lit 10 (by decide)⟩).trace := by
  decide

/-- C8, amended: an operation whose kind is neither `DEPOSIT` nor `WITHDRAW` fails and the
store is left as it was; no balance update, no ledger insert and no commit is issued. The
kind is checked after the reads: when the store calls before the `switch` succeed, the error
is the invalid-operation-type error and the calls issued are `BeginTx`, the existence check,
the insert of the account if it was absent, the locking read of the balance, and the
rollback. -/
theorem invalid_kind_rejected (f : Faults) (db : Store) (op : WalletOperation)
    (hD : op.OperationType ≠ Deposit) (hW : op.OperationType ≠ Withdraw) :
    (f.beforeSwitch = true →
        ProcessOperation f db op
          = ⟨some (Err.invalidOperationType op.OperationType), db,
              traceBeforeSwitch db.wallets op.WalletID ++ [Prim.Rollback]⟩) ∧
      (ProcessOperation f db op).err ≠ none ∧
      (ProcessOperation f db op).store = db ∧
      Prim.UpdateBalance ∉ (ProcessOperation f db op).trace ∧
      Prim.InsertTransaction ∉ (ProcessOperation f db op).trace ∧
      Prim.Commit ∉ (ProcessOperation f db op).trace := by
  have hnb := newBalance_invalid (currentBalance db.wallets op.WalletID) op hD hW
  have hst : (ProcessOperation f db op).err ≠ none ∧ (ProcessOperation f db op).store = db := by
    rcases ProcessOperation_cases f db op with h | ⟨nb, h, _⟩
    · exact h
    · rw [hnb] at h; cases h
  exact ⟨fun hf => ProcessOperation_reject f db op _ hf hnb, hst.1, hst.2,
    ProcessOperation_trace_of_reject f db op _ hnb⟩

/-- C8, amended, at an operation of kind `"TRANSFER"` on an existing account. -/
theorem invalid_kind_rejected_witness :
    ("TRANSFER" : OperationType) ≠ Deposit ∧ ("TRANSFER" : OperationType) ≠ Withdraw ∧
      ProcessOperation Faults.none ⟨[⟨4, Int64.lit 50 (by decide)⟩], []⟩
          ⟨4, "TRANSFER", Int64.lit 10 (by decide)⟩
        = ⟨some (Err.invalidOperationType "TRANSFER"), ⟨[⟨4, Int64.lit 50 (by decide)⟩], []⟩,
            [Prim.BeginTx, Prim.SelectExists, Prim.SelectForUpdate, Prim.Rollback]⟩ :=
  ⟨by decide, by decide,
    (invalid_kind_rejected Faults.none ⟨[⟨4, Int64.lit 50 (by decide)⟩], []⟩
      ⟨4, "TRANSFER", Int64.lit 10 (by decide)⟩ (by decide) (by decide)).1 (by decide)⟩

/-! ## The ledger invariant (C3) -/

theorem newBalance_ok_cases (balance nb : Int64) (op : WalletOperation)
    (h : newBalance balance op = Except.ok nb) :
    (op.OperationType = Deposit ∧ nb = Int64.add balance op.Amount) ∨
      (op.OperationType = Withdraw ∧ op.Amount.val ≤ balance.val ∧
        nb = Int64.sub balance op.Amount) := by
  unfold newBalance at h
  by_cases hD : op.OperationType = Deposit
  · left
    rw [if_pos hD] at h
    exact ⟨hD, by cases h; rfl⟩
  · rw [if_neg hD] at h
    by_cases hW : op.OperationType = Withdraw
    · rw [if_pos hW] at h
      by_cases hlt : balance.val < op.Amount.val
      · rw [if_pos hlt] at h; cases h
      · rw [if_neg hlt] at h
        exact Or.inr ⟨hW, not_lt.mp hlt, by cases h; rfl⟩
    · rw [if_neg hW] at h; cases h

theorem ledgerSum_append (ts : List Transaction) (t : Transaction) (id : UUID) :
    ledgerSum (ts ++ [t]) id
      = ledgerSum ts id + (if t.wallet_id = id then signedAmount t else 0) := by
  unfold ledgerSum
  by_cases h : t.wallet_id = id
  · simp [List.filter_append, List.filter_cons, h]
  · simp [List.filter_append, List.filter_cons, h]

theorem ledgerSum_of_absent (ts : List Transaction) (id : UUID)
    (h : ∀ t ∈ ts, t.wallet_id ≠ id) : ledgerSum ts id = 0 := by
  unfold ledgerSum
  have : ts.filter (fun t => decide (t.wallet_id = id)) = [] := by
    rw [List.filter_eq_nil_iff]
    intro t ht
    simpa using h t ht
  rw [this]
  rfl

theorem mem_updateBalance (ws : List Wallet) (nb : Int64) (id : UUID) (v : Wallet)
    (h : v ∈ updateBalance ws nb id) :
    (v.ID = id ∧ v.Balance = nb) ∨ (v.ID ≠ id ∧ v ∈ ws) := by
  unfold updateBalance at h
  rw [List.mem_map] at h
  obtain ⟨w, hw, hv⟩ := h
  by_cases hid : w.ID = id
  · rw [if_pos hid] at hv
    subst hv
    exact Or.inl ⟨hid, rfl⟩
  · rw [if_neg hid] at hv
    subst hv
    exact Or.inr ⟨hid, hw⟩

theorem mem_ensureWallet (ws : List Wallet) (id : UUID) (v : Wallet)
    (h : v ∈ ensureWallet ws id) : v ∈ ws ∨ v.ID = id := by
  unfold ensureWallet at h
  split at h
  · exact Or.inl h
  · unfold insertWallet at h
    rw [List.mem_append, List.mem_singleton] at h
    rcases h with h | h
    · exact Or.inl h
    · exact Or.inr (by rw [h])

theorem selectExists_iff (ws : List Wallet) (id : UUID) :
    selectExists ws id = true ↔ ∃ w ∈ ws, w.ID = id := by
  simp [selectExists]

theorem selectExists_updateBalance (ws : List Wallet) (nb : Int64) (id x : UUID)
    (h : selectExists ws x = true) : selectExists (updateBalance ws nb id) x = true := by
  rw [selectExists_iff] at h ⊢
  obtain ⟨w, hw, hx⟩ := h
  refine ⟨if w.ID = id then ⟨w.ID, nb⟩ else w, ?_, ?_⟩
  · unfold updateBalance
    exact List.mem_map.mpr ⟨w, hw, rfl⟩
  · by_cases hid : w.ID = id
    · rw [if_pos hid]; exact hx
    · rw [if_neg hid]; exact hx

theorem selectExists_ensureWallet_of_exists (ws : List Wallet) (id x : UUID)
    (h : selectExists ws x = true) : selectExists (ensureWallet ws id) x = true := by
  unfold ensureWallet
  split
  · exact h
  · rw [selectExists_iff] at h ⊢
    obtain ⟨w, hw, hx⟩ := h
    exact ⟨w, by unfold insertWallet; exact List.mem_append_left _ hw, hx⟩

theorem selectExists_ensureWallet_self (ws : List Wallet) (id : UUID) :
    selectExists (ensureWallet ws id) id = true := by
  cases h : selectExists (ensureWallet ws id) id
  · have := selectBalance_of_not_exists _ _ h
    rw [selectBalance_ensureWallet] at this
    cases this
  · rfl

/-- The current balance is either the balance of a row of the account or, when the account
has no row, zero. -/
theorem currentBalance_cases (ws : List Wallet) (id : UUID) :
    (selectExists ws id = true ∧ ∃ w ∈ ws, w.ID = id ∧ currentBalance ws id = w.Balance) ∨
      (selectExists ws id = false ∧ currentBalance ws id = Int64.zero) := by
  cases h : selectExists ws id
  · exact Or.inr ⟨rfl, currentBalance_of_not_exists ws id h⟩
  · obtain ⟨w, hw, hid, hb⟩ := selectBalance_of_exists ws id h
    exact Or.inl ⟨rfl, w, hw, hid, by simp [currentBalance, hb]⟩

theorem currentBalance_of_LedgerInv (db : Store) (id : UUID) (h : LedgerInv db) :
    currentBalance db.wallets id = Int64.wrap (ledgerSum db.transactions id) := by
  rcases currentBalance_cases db.wallets id with ⟨_, w, hw, hid, hb⟩ | ⟨hno, hb⟩
  · rw [hb, h.1 w hw, hid]
  · have habs : ∀ t ∈ db.transactions, t.wallet_id ≠ id := by
      intro t ht e
      have := h.2 t ht
      rw [e, hno] at this
      cases this
    rw [hb, ledgerSum_of_absent _ _ habs]
    rfl

theorem LedgerInv_empty : LedgerInv Store.empty := by
  constructor
  · intro w hw; cases hw
  · intro t ht; cases ht

/-- One invocation preserves the ledger invariant, whichever store calls fail. -/
theorem LedgerInv_ProcessOperation (f : Faults) (db : Store) (op : WalletOperation)
    (h : LedgerInv db) : LedgerInv (ProcessOperation f db op).store := by
  rcases ProcessOperation_cases f db op with hab | ⟨nb, hnb, _, hst⟩
  · rw [hab.2]; exact h
  · have hcur := currentBalance_of_LedgerInv db op.WalletID h
    have hnew : nb = Int64.wrap (ledgerSum db.transactions op.WalletID
        + signedAmount ⟨op.WalletID, op.OperationType, op.Amount⟩) := by
      rcases newBalance_ok_cases _ _ _ hnb with ⟨hD, e⟩ | ⟨hW, _, e⟩
      · rw [e, Int64.add, hcur, Int64.wrap_add_wrap]
        simp [signedAmount, hD]
      · rw [e, Int64.sub, hcur, Int64.wrap_sub_wrap]
        simp [signedAmount, hW, Withdraw_ne_Deposit]
    rw [hst]
    constructor
    · intro v hv
      show v.Balance = Int64.wrap (ledgerSum (insertTransaction db.transactions op.WalletID
        op.OperationType op.Amount) v.ID)
      unfold insertTransaction
      rw [ledgerSum_append]
      rcases mem_updateBalance _ _ _ _ hv with ⟨hid, hb⟩ | ⟨hid, hmem⟩
      · rw [hb, hnew, hid]
        simp
      · have hne : ¬ op.WalletID = v.ID := fun e => hid e.symm
        rcases mem_ensureWallet _ _ _ hmem with hin | hid2
        · rw [h.1 v hin]
          simp [hne]
        · exact absurd hid2 hid
    · intro t ht
      show selectExists (updateBalance (ensureWallet db.wallets op.WalletID) nb op.WalletID)
        t.wallet_id = true
      apply selectExists_updateBalance
      have ht2 : t ∈ db.transactions ++ [⟨op.WalletID, op.OperationType, op.Amount⟩] := ht
      rw [List.mem_append, List.mem_singleton] at ht2
      rcases ht2 with hin | heq
      · exact selectExists_ensureWallet_of_exists _ _ _ (h.2 t hin)
      · rw [heq]
        exact selectExists_ensureWallet_self _ _

theorem LedgerInv_runOps (steps : List (Faults × WalletOperation)) (db : Store)
    (h : LedgerInv db) : LedgerInv (runOps db steps) := by
  induction steps generalizing db with
  | nil => exact h
  | cons s rest ih =>
    obtain ⟨f, op⟩ := s
    exact ih _ (LedgerInv_ProcessOperation f db op h)

/-- C3, counterexample: two deposits of `2^63 - 1` into account 1 of the empty store both
commit; the account then holds `-2` while the signed amounts of its two ledger entries sum
to `2^64 - 2`. -/
theorem ledger_sum_counterexample :
    runOps Store.empty
        [(Faults.none, ⟨1, Deposit, maxInt64⟩), (Faults.none, ⟨1, Deposit, maxInt64⟩)]
        = ⟨[⟨1, Int64.lit (-2) (by decide)⟩],
            [⟨1, Deposit, maxInt64⟩, ⟨1, Deposit, maxInt64⟩]⟩ ∧
      ledgerSum [⟨1, Deposit, maxInt64⟩, ⟨1, Deposit, maxInt64⟩] 1 = 18446744073709551614 ∧
      (Int64.lit (-2) (by decide)).val
        ≠ ledgerSum [⟨1, Deposit, maxInt64⟩, ⟨1, Deposit, maxInt64⟩] 1 := by
  decide

/-- C3, amended: for every sequence of `ProcessOperation` calls on the initially empty store,
whichever store calls fail, after each call the balance of every existing account is the
`int64` (two's-complement) reduction of the sum of the signed amounts of the ledger entries
of that account; it is that sum itself exactly when the sum lies between `-2^63` and
`2^63 - 1`. -/
theorem balance_is_wrapped_ledger_sum (steps : List (Faults × WalletOperation)) (n : Nat) :
    ∀ w ∈ (runOps Store.empty (steps.take n)).wallets,
      w.Balance
          = Int64.wrap (ledgerSum (runOps Store.empty (steps.take n)).transactions w.ID) ∧
        (w.Balance.val = ledgerSum (runOps Store.empty (steps.take n)).transactions w.ID ↔
          (-9223372036854775808 ≤
              ledgerSum (runOps Store.empty (steps.take n)).transactions w.ID ∧
            ledgerSum (runOps Store.empty (steps.take n)).transactions w.ID
              ≤ 9223372036854775807)) := by
  intro w hw
  have hinv := (LedgerInv_runOps (steps.take n) Store.empty LedgerInv_empty).1 w hw
  refine ⟨hinv, ?_, ?_⟩
  · intro e
    rw [← e]
    exact ⟨w.Balance.lo, w.Balance.hi⟩
  · intro hr
    rw [hinv]
    exact Int64.wrap_val_of_fits _ hr.1 hr.2

/-- C3, amended, at the scenario of the specification: deposit 1000 into the new account 1,
then withdraw 500; the row of account 1 holds 500, the signed sum of its two entries. -/
theorem balance_is_wrapped_ledger_sum_witness :
    (⟨1, Int64.lit 500 (by decide)⟩ : Wallet) ∈
        (runOps Store.empty
          ([(Faults.none, (⟨1, Deposit, Int64.lit 1000 (by decide)⟩ : WalletOperation)),
            (Faults.none, ⟨1, Withdraw, Int64.lit 500 (by decide)⟩)].take 2)).wallets ∧
      ledgerSum (runOps Store.empty
          ([(Faults.none, (⟨1, Deposit, Int64.lit 1000 (by decide)⟩ : WalletOperation)),
            (Faults.none, ⟨1, Withdraw, Int64.lit 500 (by decide)⟩)].take 2)).transactions 1
        = 500 ∧
      Int64.lit 500 (by decide)
        = Int64.wrap (ledgerSum (runOps Store.empty
          ([(Faults.none, (⟨1, Deposit, Int64.lit 1000 (by decide)⟩ : WalletOperation)),
            (Faults.none, ⟨1, Withdraw, Int64.lit 500 (by decide)⟩)].take 2)).transactions 1) :=
  ⟨by decide, by decide,
    (balance_is_wrapped_ledger_sum
      [(Faults.none, ⟨1, Deposit, Int64.lit 1000 (by decide)⟩),
        (Faults.none, ⟨1, Withdraw, Int64.lit 500 (by decide)⟩)] 2
      ⟨1, Int64.lit 500 (by decide)⟩ (by decide)).1⟩

/-! ## Balances that are not negative (C4) -/

/-- C4, counterexample: a deposit of `2^63 - 1` followed by a deposit of `1` into account 1
of the empty store, both with strictly positive amounts and both committed, leave the
account with balance `-2^63`. -/
theorem negative_balance_counterexample :
    0 < maxInt64.val ∧ 0 < (Int64.lit 1 (by decide)).val ∧
      (ProcessOperation Faults.none Store.empty ⟨1, Deposit, maxInt64⟩).err = none ∧
      (ProcessOperation Faults.none
        (ProcessOperation Faults.none Store.empty ⟨1, Deposit, maxInt64⟩).store
        ⟨1, Deposit, Int64.lit 1 (by decide)⟩).err = none ∧
      (runOps Store.empty
        [(Faults.none, ⟨1, Deposit, maxInt64⟩),
          (Faults.none, ⟨1, Deposit, Int64.lit 1 (by decide)⟩)]).wallets
        = [⟨1, minInt64⟩] ∧
      minInt64.val < 0 := by
  decide

theorem NonNegative_empty : NonNegative Store.empty := by
  intro w hw; cases hw

theorem currentBalance_nonneg (db : Store) (id : UUID) (h : NonNegative db) :
    0 ≤ (currentBalance db.wallets id).val := by
  rcases currentBalance_cases db.wallets id with ⟨_, w, hw, _, hb⟩ | ⟨_, hb⟩
  · rw [hb]; exact h w hw
  · rw [hb]; decide

/-- One invocation with a strictly positive amount keeps all balances non-negative, provided
that a committed deposit does not take the balance above `2^63 - 1`. -/
theorem NonNegative_ProcessOperation (f : Faults) (db : Store) (op : WalletOperation)
    (h : NonNegative db) (hpos : 0 < op.Amount.val)
    (hfit : op.OperationType = Deposit → (ProcessOperation f db op).err = none →
      (currentBalance db.wallets op.WalletID).val + op.Amount.val ≤ 9223372036854775807) :
    NonNegative (ProcessOperation f db op).store := by
  rcases ProcessOperation_cases f db op with hab | ⟨nb, hnb, herr, hst⟩
  · rw [hab.2]; exact h
  · have hcur := currentBalance_nonneg db op.WalletID h
    have hhi := (currentBalance db.wallets op.WalletID).hi
    have hnew : 0 ≤ nb.val := by
      rcases newBalance_ok_cases _ _ _ hnb with ⟨hD, e⟩ | ⟨_, hle, e⟩
      · have := hfit hD herr
        rw [e, Int64.add, Int64.wrap_val_of_fits _ (by omega) this]
        omega
      · rw [e, Int64.sub, Int64.wrap_val_of_fits _ (by omega) (by omega)]
        omega
    rw [hst]
    intro v hv
    rcases mem_updateBalance _ _ _ _ hv with ⟨_, hb⟩ | ⟨hid, hmem⟩
    · rw [hb]; exact hnew
    · rcases mem_ensureWallet _ _ _ hmem with hin | hid2
      · exact h v hin
      · exact absurd hid2 hid

theorem NonNegative_runOps (steps : List (Faults × WalletOperation)) (db : Store)
    (h : NonNegative db) (hpos : ∀ s ∈ steps, 0 < s.2.Amount.val)
    (hfit : depositsFit db steps = true) (n : Nat) :
    NonNegative (runOps db (steps.take n)) := by
  induction steps generalizing db n with
  | nil => simpa [runOps] using h
  | cons s rest ih =>
    obtain ⟨f, op⟩ := s
    cases n with
    | zero => simpa [runOps] using h
    | succ n =>
      simp only [depositsFit, Bool.and_eq_true, decide_eq_true_eq] at hfit
      have hstep := NonNegative_ProcessOperation f db op h
        (hpos (f, op) (List.mem_cons_self _ _)) hfit.1
      exact ih _ hstep (fun s hs => hpos s (List.mem_cons_of_mem _ hs)) hfit.2 n

/-- C4, amended: for every sequence of operations with strictly positive amounts applied by
`ProcessOperation` to the initially empty store, whichever store calls fail, the balance of
every account is greater than or equal to 0 after every operation, provided that no
committed `DEPOSIT` takes the balance of its account above `2^63 - 1`. -/
theorem balances_nonnegative (steps : List (Faults × WalletOperation))
    (hpos : ∀ s ∈ steps, 0 < s.2.Amount.val)
    (hfit : depositsFit Store.empty steps = true) (n : Nat) :
    ∀ w ∈ (runOps Store.empty (steps.take n)).wallets, 0 ≤ w.Balance.val :=
  NonNegative_runOps steps Store.empty NonNegative_empty hpos hfit n

/-- C4, amended, at the run of test "Insufficient funds": deposit 100, then a rejected
withdrawal of 200; the row of account 1 after both calls holds 100. -/
theorem balances_nonnegative_witness :
    (∀ s ∈ [(Faults.none, (⟨1, Deposit, Int64.lit 100 (by decide)⟩ : WalletOperation)),
        (Faults.none, ⟨1, Withdraw, Int64.lit 200 (by decide)⟩)], 0 < s.2.Amount.val) ∧
      depositsFit Store.empty
        [(Faults.none, ⟨1, Deposit, Int64.lit 100 (by decide)⟩),
          (Faults.none, ⟨1, Withdraw, Int64.lit 200 (by decide)⟩)] = true ∧
      (⟨1, Int64.lit 100 (by decide)⟩ : Wallet) ∈
        (runOps Store.empty
          ([(Faults.none, (⟨1, Deposit, Int64.lit 100 (by decide)⟩ : WalletOperation)),
            (Faults.none, ⟨1, Withdraw, Int64.lit 200 (by decide)⟩)].take 2)).wallets ∧
      0 ≤ (Int64.lit 100 (by decide)).val :=
  ⟨by decide, by decide, by decide,
    balances_nonnegative
      [(Faults.none, ⟨1, Deposit, Int64.lit 100 (by decide)⟩),
        (Faults.none, ⟨1, Withdraw, Int64.lit 200 (by decide)⟩)]
      (by decide) (by decide) 2 ⟨1, Int64.lit 100 (by decide)⟩ (by decide)⟩

end WalletService
